import Mathlib

/-!
Verification of the MinerU desktop engine-bridge supervisor
(`apps/desktop/src/main/engine-bridge/index.ts`).

The development shallowly embeds the bridge's reconciliation, cancellation,
JSONL-decoding and event-emission logic:

* machine strings (job states, error codes, manifest statuses) are Lean
  `String`s; JS `null`/`undefined` become `Option`;
* the child's exit code (`number | null` in the close callback) is
  `Option Int`;
* `JSON.parse` applied to the result-manifest file is an unchecked cast in
  the source, so a manifest is modelled by the two fields the bridge
  actually inspects (`status`, `errorCode`), with `status` an arbitrary
  string; file reads and JSON parses are abstracted as `Option`-returning
  functions, failure (`catch`) being `none`;
* the single-threaded callback queue is modelled by a step function over
  per-job state, applied to an arbitrary interleaving of the triggers
  (cancel calls, the timeout firing, stdout chunks, the close/error
  callback, the terminator promise settling).
-/

/-- The five lifecycle states of `EngineBridgeState` in the source. -/
inductive EngineBridgeState where
  | queued
  | running
  | succeeded
  | failed
  | cancelled
deriving DecidableEq, Repr

/-- A terminal state in the sense of the bridge: one of
`succeeded`/`failed`/`cancelled`. -/
def EngineBridgeState.isTerminal : EngineBridgeState → Bool
  | .succeeded => true
  | .failed => true
  | .cancelled => true
  | _ => false

/-- The fields of `EngineResultManifest` that the bridge inspects during
reconciliation.  `JSON.parse(raw) as EngineResultManifest` is an unchecked
cast, so `status` is an arbitrary string rather than an enumeration;
`errorCode` is `string | null`, i.e. `Option String` (possibly `some ""`). -/
structure EngineResultManifest where
  status : String
  errorCode : Option String
deriving DecidableEq, Repr

/-- Status of an optional manifest (`requestManifest?.status`). -/
def manifestStatus (m : Option EngineResultManifest) : Option String :=
  m.map (·.status)

/-- Error code of an optional manifest (`requestManifest?.errorCode`),
flattening JS `undefined` (no manifest) and `null` (field is null) to
`none`. -/
def manifestErrorCode (m : Option EngineResultManifest) : Option String :=
  m.bind (·.errorCode)

/-- JS truthiness of a `string | null | undefined` value: falsy exactly for
`undefined`, `null` and the empty string. -/
def jsStringTruthy : Option String → Bool
  | some s => s ≠ ""
  | none => false

/-- `mapExitCodeToErrorCode` from the source: the fixed
`EXIT_CODE_ERROR_MAP` lookup with `?? "E_ENGINE_FAILED"` default, and
`"E_ENGINE_FAILED"` for a non-numeric (null) exit code. -/
def mapExitCodeToErrorCode (exitCode : Option Int) : String :=
  match exitCode with
  | none => "E_ENGINE_FAILED"
  | some n =>
    if n = 1 then "E_ENGINE_FAILED"
    else if n = 2 then "E_INVALID_INPUT"
    else if n = 3 then "E_OUTPUT_UNWRITABLE"
    else if n = 4 then "E_CANCELLED"
    else if n = 5 then "E_TIMEOUT"
    else "E_ENGINE_FAILED"

/-- The data `finishJob` consults when computing the terminal outcome:
the job's `requestedCancel` and `timedOut` flags, whether the close/error
callback carried a spawn-level error, the exit code, and the manifest
read from the output directory (or `none`). -/
structure FinishInput where
  requestedCancel : Bool
  timedOut : Bool
  spawnError : Bool
  exitCode : Option Int
  manifest : Option EngineResultManifest
deriving DecidableEq, Repr

/-- Fallback error-code resolution for the failed branch once the manifest
provides no truthy error code: `spawnError` yields `"E_ENGINE_FAILED"`,
otherwise the exit-code table applies. -/
def spawnFallbackErrorCode (i : FinishInput) : String :=
  if i.spawnError then "E_ENGINE_FAILED" else mapExitCodeToErrorCode i.exitCode

/-- Error code of the failed branch of `finishJob`: timeout flag first,
then the manifest's error code when truthy (`requestManifest?.errorCode`
is falsy for a missing manifest, a null field, and the empty string),
then the spawn-error / exit-code fallback. -/
def failedErrorCode (i : FinishInput) : String :=
  if i.timedOut then "E_TIMEOUT"
  else
    match manifestErrorCode i.manifest with
    | some s => if s = "" then spawnFallbackErrorCode i else s
    | none => spawnFallbackErrorCode i

/-- The terminal `(state, errorCode)` pair computed by `finishJob`
(source lines 361-381): success branch first (`exitCode === 0 &&
requestManifest?.status === "succeeded"`), then the cancelled branch
(`requestedCancel || exitCode === 4 || manifest status "cancelled"`),
then the failed branch. -/
def finishJobOutcome (i : FinishInput) : EngineBridgeState × Option String :=
  if i.exitCode = some 0 ∧ manifestStatus i.manifest = some "succeeded" then
    (.succeeded, none)
  else if i.requestedCancel = true ∨ i.exitCode = some 4 ∨
      manifestStatus i.manifest = some "cancelled" then
    (.cancelled,
      some (if i.requestedCancel = true then "E_CANCELLED"
            else (manifestErrorCode i.manifest).getD "E_CANCELLED"))
  else
    (.failed, some (failedErrorCode i))

/-- Helper: the outcome state is always terminal. -/
theorem finishJobOutcome_isTerminal (i : FinishInput) :
    (finishJobOutcome i).1.isTerminal = true := by
  unfold finishJobOutcome
  split_ifs <;> rfl

/-- Helper: `manifestStatus` is `some s` exactly when a manifest is present
with that status. -/
theorem manifestStatus_eq_some (m : Option EngineResultManifest) (s : String) :
    manifestStatus m = some s ↔ ∃ r, m = some r ∧ r.status = s := by
  cases m <;> simp [manifestStatus]

/-- A `finishJob` input used to refute claim C1: `requestedCancel` is set,
but the child exited 0 and the manifest says `succeeded`. -/
def cancelledYetSucceededInput : FinishInput :=
  { requestedCancel := true
    timedOut := false
    spawnError := false
    exitCode := some 0
    manifest := some { status := "succeeded", errorCode := none } }

/-- C1, counterexample.  With `requestedCancel` set, exit code 0 and a
manifest whose status is `succeeded`, `finishJob` computes `succeeded`,
not `cancelled`: the success branch is tested before the cancellation
branch, so a cancelled job can settle as `succeeded`. -/
theorem cancel_precedence_counterexample :
    cancelledYetSucceededInput.requestedCancel = true ∧
    (finishJobOutcome cancelledYetSucceededInput).1 = EngineBridgeState.succeeded ∧
    (finishJobOutcome cancelledYetSucceededInput).1 ≠ EngineBridgeState.cancelled := by
  decide

/-- C1, amended.  If `requestedCancel` is true at reconciliation and the
success branch does not apply (it is not the case that the exit code is 0
and the manifest status is `succeeded`), then the terminal state is
`cancelled` with error code `E_CANCELLED`. -/
theorem cancel_precedence_amended (i : FinishInput)
    (hc : i.requestedCancel = true)
    (hs : ¬(i.exitCode = some 0 ∧ manifestStatus i.manifest = some "succeeded")) :
    finishJobOutcome i = (EngineBridgeState.cancelled, some "E_CANCELLED") := by
  unfold finishJobOutcome
  rw [if_neg hs, if_pos (Or.inl hc), if_pos hc]

/-- C1, witness for the amended theorem at a concrete input: cancel
requested, child killed with exit code null, no manifest. -/
theorem cancel_precedence_amended_witness :
    finishJobOutcome
      { requestedCancel := true, timedOut := false, spawnError := false,
        exitCode := none, manifest := none } =
      (EngineBridgeState.cancelled, some "E_CANCELLED") :=
  cancel_precedence_amended _ (by decide) (by decide)

/-- A `finishJob` input used to refute claim C2: the timeout fired, but the
child exited 0 with a `succeeded` manifest. -/
def timedOutYetSucceededInput : FinishInput :=
  { requestedCancel := false
    timedOut := true
    spawnError := false
    exitCode := some 0
    manifest := some { status := "succeeded", errorCode := none } }

/-- A second refuting input for claim C2: the timeout fired and the child
exited with code 4, which routes to the cancelled branch, not failed. -/
def timedOutYetCancelledInput : FinishInput :=
  { requestedCancel := false
    timedOut := true
    spawnError := false
    exitCode := some 4
    manifest := none }

/-- C2, counterexample.  With `timedOut` set, an exit code of 0 together
with a `succeeded` manifest still settles as `succeeded` (the success
branch precedes the timeout check), and an exit code of 4 settles as
`cancelled` — in neither case `failed` with `E_TIMEOUT` as the claim
requires. -/
theorem timeout_precedence_counterexample :
    timedOutYetSucceededInput.timedOut = true ∧
    (finishJobOutcome timedOutYetSucceededInput).1 = EngineBridgeState.succeeded ∧
    timedOutYetCancelledInput.timedOut = true ∧
    (finishJobOutcome timedOutYetCancelledInput).1 = EngineBridgeState.cancelled := by
  decide

/-- C2, amended.  If `timedOut` is true at reconciliation and neither the
success branch nor the cancelled branch applies, the terminal state is
`failed` with error code `E_TIMEOUT`. -/
theorem timeout_precedence_amended (i : FinishInput)
    (ht : i.timedOut = true)
    (hs : ¬(i.exitCode = some 0 ∧ manifestStatus i.manifest = some "succeeded"))
    (hc : ¬(i.requestedCancel = true ∨ i.exitCode = some 4 ∨
            manifestStatus i.manifest = some "cancelled")) :
    finishJobOutcome i = (EngineBridgeState.failed, some "E_TIMEOUT") := by
  unfold finishJobOutcome
  rw [if_neg hs, if_neg hc]
  unfold failedErrorCode
  rw [if_pos ht]

/-- C2, witness for the amended theorem at a concrete input: timeout fired,
child killed with exit code null, no manifest. -/
theorem timeout_precedence_amended_witness :
    finishJobOutcome
      { requestedCancel := false, timedOut := true, spawnError := false,
        exitCode := none, manifest := none } =
      (EngineBridgeState.failed, some "E_TIMEOUT") :=
  timeout_precedence_amended _ (by decide) (by decide) (by decide)

/-- C3.  The terminal state is `succeeded` iff the exit code is 0 and a
manifest is present with status `succeeded`; and in the succeeded case the
error code is exactly null (`none`). -/
theorem success_purity (i : FinishInput) :
    ((finishJobOutcome i).1 = EngineBridgeState.succeeded ↔
      i.exitCode = some 0 ∧ ∃ r, i.manifest = some r ∧ r.status = "succeeded") ∧
    ((finishJobOutcome i).1 = EngineBridgeState.succeeded →
      (finishJobOutcome i).2 = none) := by
  unfold finishJobOutcome
  split_ifs with h1 h2 <;>
    simp_all [manifestStatus_eq_some]

/-- C3, witness at a concrete input: exit 0 with a `succeeded` manifest is
classified `succeeded`, and the error code is null there. -/
theorem success_purity_witness :
    (finishJobOutcome
      { requestedCancel := false, timedOut := false, spawnError := false,
        exitCode := some 0,
        manifest := some { status := "succeeded", errorCode := none } }).2 = none := by
  have h := success_purity
    { requestedCancel := false, timedOut := false, spawnError := false,
      exitCode := some 0,
      manifest := some { status := "succeeded", errorCode := none } }
  exact h.2 (h.1.mpr (by decide))

/-- C5.  The error code of the settled outcome is non-null iff the terminal
state is not `succeeded`; and in the cancelled branch without a local
cancel request, a missing or null manifest error code falls back to
`E_CANCELLED`. -/
theorem errorCode_nonnull_iff_not_succeeded (i : FinishInput) :
    ((finishJobOutcome i).2 ≠ none ↔
      (finishJobOutcome i).1 ≠ EngineBridgeState.succeeded) ∧
    (i.requestedCancel = false → manifestErrorCode i.manifest = none →
      (finishJobOutcome i).1 = EngineBridgeState.cancelled →
      (finishJobOutcome i).2 = some "E_CANCELLED") := by
  unfold finishJobOutcome
  split_ifs <;> simp_all

/-- C5, witness at a concrete input: a plain failure (exit 1, no manifest)
has a non-null error code and is not `succeeded`; a cancelled-by-manifest
outcome with a null manifest error code falls back to `E_CANCELLED`. -/
theorem errorCode_nonnull_iff_not_succeeded_witness :
    (finishJobOutcome
      { requestedCancel := false, timedOut := false, spawnError := false,
        exitCode := some 1, manifest := none }).2 ≠ none ∧
    (finishJobOutcome
      { requestedCancel := false, timedOut := false, spawnError := false,
        exitCode := some 7,
        manifest := some { status := "cancelled", errorCode := none } }).2 =
      some "E_CANCELLED" := by
  refine ⟨(errorCode_nonnull_iff_not_succeeded _).1.mpr (by decide), ?_⟩
  exact (errorCode_nonnull_iff_not_succeeded _).2 (by decide) (by decide) (by decide)

/-- A `finishJob` input used to refute claim C7: the manifest provides the
non-null error code `""`, which JS truthiness skips. -/
def emptyErrorCodeInput : FinishInput :=
  { requestedCancel := false
    timedOut := false
    spawnError := false
    exitCode := some 2
    manifest := some { status := "failed", errorCode := some "" } }

/-- C7, counterexample.  The failed branch tests the manifest error code
for JS truthiness, not for being non-null: with a manifest error code of
`""` (non-null) and exit code 2, the settled error code is
`E_INVALID_INPUT` from the exit-code table, not the verbatim `""` the
claim requires. -/
theorem failed_errorCode_priority_counterexample :
    (finishJobOutcome emptyErrorCodeInput).1 = EngineBridgeState.failed ∧
    manifestErrorCode emptyErrorCodeInput.manifest = some "" ∧
    (finishJobOutcome emptyErrorCodeInput).2 ≠ some "" ∧
    (finishJobOutcome emptyErrorCodeInput).2 = some "E_INVALID_INPUT" := by
  decide

/-- C7, amended.  For a job settling as `failed`, the error code is
`failedErrorCode`, resolved by priority: the timeout flag yields
`E_TIMEOUT`; else a non-null, non-empty manifest error code is used
verbatim; else a spawn-level error yields `E_ENGINE_FAILED`; else the exit
code is mapped through the fixed table (1, 2, 3, 4, 5 as listed), with
`E_ENGINE_FAILED` for any other or non-numeric exit code. -/
theorem failed_errorCode_priority (i : FinishInput)
    (hf : (finishJobOutcome i).1 = EngineBridgeState.failed) :
    (finishJobOutcome i).2 = some (failedErrorCode i) ∧
    (i.timedOut = true → failedErrorCode i = "E_TIMEOUT") ∧
    (∀ s, i.timedOut = false → manifestErrorCode i.manifest = some s → s ≠ "" →
      failedErrorCode i = s) ∧
    (i.timedOut = false →
      (manifestErrorCode i.manifest = none ∨ manifestErrorCode i.manifest = some "") →
      i.spawnError = true → failedErrorCode i = "E_ENGINE_FAILED") ∧
    (i.timedOut = false →
      (manifestErrorCode i.manifest = none ∨ manifestErrorCode i.manifest = some "") →
      i.spawnError = false → failedErrorCode i = mapExitCodeToErrorCode i.exitCode) ∧
    mapExitCodeToErrorCode none = "E_ENGINE_FAILED" ∧
    mapExitCodeToErrorCode (some 1) = "E_ENGINE_FAILED" ∧
    mapExitCodeToErrorCode (some 2) = "E_INVALID_INPUT" ∧
    mapExitCodeToErrorCode (some 3) = "E_OUTPUT_UNWRITABLE" ∧
    mapExitCodeToErrorCode (some 4) = "E_CANCELLED" ∧
    mapExitCodeToErrorCode (some 5) = "E_TIMEOUT" ∧
    (∀ n : Int, n ≠ 1 → n ≠ 2 → n ≠ 3 → n ≠ 4 → n ≠ 5 →
      mapExitCodeToErrorCode (some n) = "E_ENGINE_FAILED") := by
  refine ⟨?_, ?_, ?_, ?_, ?_, by decide, by decide, by decide, by decide, by decide,
    by decide, ?_⟩
  · unfold finishJobOutcome at hf ⊢
    split_ifs at hf ⊢
    all_goals simp_all

  · intro ht
    unfold failedErrorCode
    rw [if_pos ht]
  · intro s ht hm hne
    unfold failedErrorCode
    rw [if_neg (by simp [ht]), hm]
    simp [hne]
  · intro ht hm hsp
    unfold failedErrorCode spawnFallbackErrorCode
    rcases hm with hm | hm <;> (rw [if_neg (by simp [ht]), hm]; simp [hsp])
  · intro ht hm hsp
    unfold failedErrorCode spawnFallbackErrorCode
    rcases hm with hm | hm <;> (rw [if_neg (by simp [ht]), hm]; simp [hsp])
  · intro n h1 h2 h3 h4 h5
    simp only [mapExitCodeToErrorCode]
    rw [if_neg h1, if_neg h2, if_neg h3, if_neg h4, if_neg h5]

/-- C7, witness for the amended theorem at a concrete input: a spawn-level
failure (exit code null, no manifest) settles as `failed` with
`E_ENGINE_FAILED`. -/
theorem failed_errorCode_priority_witness :
    (finishJobOutcome
      { requestedCancel := false, timedOut := false, spawnError := true,
        exitCode := none, manifest := none }).2 =
      some (failedErrorCode
        { requestedCancel := false, timedOut := false, spawnError := true,
          exitCode := none, manifest := none }) :=
  (failed_errorCode_priority _ (by decide)).1


/-!
JSONL stream decoder (`consumeStdout`, source lines 323-346).

Streams are modelled as `List Char`.  The source splits the concatenation
of the held remainder and the incoming chunk on the regex `\r?\n`
(leftmost match, the optional `\r` consumed greedily), pops the final
fragment back into the remainder, and for each complete line trims it,
skips it when empty, and otherwise attempts a JSON parse, forwarding a
`running`-state progress event on success and silently dropping the line
on failure.  `JSON.parse` of a single line is abstracted as a function
`parse : List Char → Option ε` into an arbitrary payload type.
-/

/-- Prepend a character to the first piece of a split (used when the
scanned character is not part of a line break). -/
def glue (c : Char) : List (List Char) → List (List Char)
  | [] => [[c]]
  | l :: ls => (c :: l) :: ls

/-- Splitting on the regex `\r?\n` with leftmost matching, as JS
`String.prototype.split` does: a `\n` always ends a piece, consuming the
single `\r` immediately before it if present; a `\r` not followed by `\n`
is ordinary text. -/
def splitCRLF : List Char → List (List Char)
  | [] => [[]]
  | '\n' :: rest => [] :: splitCRLF rest
  | '\r' :: '\n' :: rest => [] :: splitCRLF rest
  | c :: rest => glue c (splitCRLF rest)

/-- Drop a single trailing carriage return, if present. -/
def stripCR (s : List Char) : List Char :=
  if s.getLast? = some '\r' then s.dropLast else s

/-- Whitespace in the sense of JS `String.prototype.trim`: space, tab,
line breaks, vertical tab, form feed, no-break space, BOM. -/
def isJsWhitespace (c : Char) : Bool :=
  c = ' ' || c = '\t' || c = '\n' || c = '\r' || c = '\x0b' || c = '\x0c' ||
    c = ' ' || c = '﻿'

/-- JS `line.trim()`: drop whitespace from both ends. -/
def trimChars (s : List Char) : List Char :=
  ((s.dropWhile isJsWhitespace).reverse.dropWhile isJsWhitespace).reverse

/-- Per-line handling of the decoder loop: trim, skip when empty,
otherwise attempt the parse; `none` means the line contributes no event
(empty or malformed), and no exception escapes. -/
def processLine {ε : Type} (parse : List Char → Option ε) (line : List Char) : Option ε :=
  let trimmed := trimChars line
  if trimmed = [] then none else parse trimmed

/-- `consumeStdout` from the source: concatenate the held remainder with
the chunk, split on `\r?\n`, hold the last (possibly incomplete) fragment
back as the new remainder (`lines.pop() ?? ""`), and turn each complete
line into at most one parsed progress event, in order. -/
def consumeStdout {ε : Type} (parse : List Char → Option ε) (remainder chunk : List Char) :
    List Char × List ε :=
  let lines := splitCRLF (remainder ++ chunk)
  (lines.getLastD [], lines.dropLast.filterMap (processLine parse))

/-- Feeding one chunk to the decoder, accumulating emitted events. -/
def feedChunk {ε : Type} (parse : List Char → Option ε) (st : List Char × List ε)
    (chunk : List Char) : List Char × List ε :=
  let o := consumeStdout parse st.1 chunk
  (o.1, st.2 ++ o.2)

/-- Character-at-a-time reference machine for the decoder: a `\n` closes
the current fragment (shedding one `\r` directly before it) and processes
it as a line; any other character is appended to the fragment. -/
def feedChar {ε : Type} (parse : List Char → Option ε) (st : List Char × List ε)
    (c : Char) : List Char × List ε :=
  if c = '\n' then ([], st.2 ++ (processLine parse (stripCR st.1)).toList)
  else (st.1 ++ [c], st.2)

/-- Helper: unfolding equation of `splitCRLF` for a head character that is
not part of a line break. -/
theorem splitCRLF_cons (c : Char) (rest : List Char)
    (h1 : c = '\n' → False)
    (h2 : ∀ rest2, c = '\r' → rest = '\n' :: rest2 → False) :
    splitCRLF (c :: rest) = glue c (splitCRLF rest) := by
  rw [splitCRLF]
  · exact h1
  · exact h2

/-- Helper: unfolding equation of `splitCRLF` at a leading newline. -/
theorem splitCRLF_newline (rest : List Char) :
    splitCRLF ('\n' :: rest) = [] :: splitCRLF rest := by
  rw [splitCRLF]

/-- Helper: unfolding equation of `splitCRLF` at a leading CRLF pair. -/
theorem splitCRLF_crlf (rest : List Char) :
    splitCRLF ('\r' :: '\n' :: rest) = [] :: splitCRLF rest := by
  rw [splitCRLF]

/-- Helper: `glue` never produces an empty list of pieces. -/
theorem glue_ne_nil (c : Char) (ls : List (List Char)) : glue c ls ≠ [] := by
  cases ls <;> simp [glue]

/-- Helper: `splitCRLF` always produces at least one piece. -/
theorem splitCRLF_ne_nil (s : List Char) : splitCRLF s ≠ [] := by
  induction s using splitCRLF.induct with
  | case1 => simp [splitCRLF]
  | case2 rest ih => simp [splitCRLF_newline]
  | case3 rest ih => simp [splitCRLF_crlf]
  | case4 c rest h1 h2 ih => rw [splitCRLF_cons c rest h1 h2]; exact glue_ne_nil _ _

/-- Helper: a fragment containing no newline is left whole by `splitCRLF`. -/
theorem splitCRLF_of_not_mem_newline (s : List Char) (h : '\n' ∉ s) :
    splitCRLF s = [s] := by
  induction s using splitCRLF.induct with
  | case1 => rfl
  | case2 rest ih => simp at h
  | case3 rest ih => simp at h
  | case4 c rest h1 h2 ih =>
    have hrest : '\n' ∉ rest := fun hm => h (List.mem_cons_of_mem _ hm)
    rw [splitCRLF_cons c rest h1 h2, ih hrest]
    simp [glue]

/-- Helper: `stripCR` commutes with a cons onto a nonempty tail (only the
last character can be stripped). -/
theorem stripCR_cons (c : Char) (s : List Char) (h : s ≠ []) :
    stripCR (c :: s) = c :: stripCR s := by
  cases s with
  | nil => exact absurd rfl h
  | cons b t =>
    unfold stripCR
    rw [List.getLast?_cons_cons]
    split_ifs <;> simp

/-- Helper: the last-element default of a cons with nonempty tail ignores
the head. -/
theorem getLastD_cons_of_ne_nil {β : Type} (x : β) (L : List β) (d : β) (h : L ≠ []) :
    (x :: L).getLastD d = L.getLastD d := by
  cases L with
  | nil => exact absurd rfl h
  | cons y t => simp [List.getLastD_cons]

/-- Helper: splitting a buffer whose first newline comes right after `acc`
yields the CR-stripped `acc` as the first complete piece. -/
theorem splitCRLF_append_newline (acc rest : List Char) (h : '\n' ∉ acc) :
    splitCRLF (acc ++ '\n' :: rest) = stripCR acc :: splitCRLF rest := by
  induction acc with
  | nil => simp [splitCRLF_newline, stripCR]
  | cons a as ih =>
    have ha : a ≠ '\n' := fun hc => h (hc ▸ List.mem_cons_self a as)
    have has : '\n' ∉ as := fun hm => h (List.mem_cons_of_mem _ hm)
    by_cases hr : a = '\r'
    · subst hr
      cases as with
      | nil => simp [splitCRLF_crlf, stripCR]
      | cons a2 as2 =>
        have ha2 : a2 ≠ '\n' := fun h2 => has (h2 ▸ List.mem_cons_self a2 as2)
        rw [List.cons_append, splitCRLF_cons '\r' _ (fun hc => absurd hc (by decide))
              (by intro rest2 _ heq; injection heq with hh _; exact ha2 hh),
            show (a2 :: as2) ++ '\n' :: rest = a2 :: as2 ++ '\n' :: rest from rfl, ih has,
            show stripCR ('\r' :: a2 :: as2) = '\r' :: stripCR (a2 :: as2) from
              stripCR_cons _ _ (by simp)]
        simp [glue]
    · rw [List.cons_append,
          splitCRLF_cons a _ (fun hc => ha hc) (fun rest2 hc _ => hr hc), ih has]
      cases as with
      | nil => simp [glue, stripCR, hr]
      | cons a2 as2 =>
        rw [show stripCR (a :: a2 :: as2) = a :: stripCR (a2 :: as2) from
              stripCR_cons _ _ (by simp)]
        simp [glue]

/-- Helper: the character machine agrees with the split-based decoder — a
fold of `feedChar` over the buffer, started from a newline-free held
fragment, computes exactly the new remainder and the list of events that
`splitCRLF` processing of the whole buffer computes. -/
theorem foldl_feedChar_eq {ε : Type} (parse : List Char → Option ε) (buf : List Char) :
    ∀ (acc : List Char) (evs : List ε), '\n' ∉ acc →
    List.foldl (feedChar parse) (acc, evs) buf =
      ((splitCRLF (acc ++ buf)).getLastD [],
       evs ++ (splitCRLF (acc ++ buf)).dropLast.filterMap (processLine parse)) := by
  induction buf with
  | nil =>
    intro acc evs h
    rw [List.foldl_nil, List.append_nil, splitCRLF_of_not_mem_newline acc h]
    simp
  | cons c rest ih =>
    intro acc evs h
    by_cases hc : c = '\n'
    · subst hc
      rw [List.foldl_cons,
          show feedChar parse (acc, evs) '\n' =
            ([], evs ++ (processLine parse (stripCR acc)).toList) from by
              simp [feedChar],
          ih [] _ (by simp),
          show acc ++ '\n' :: rest = acc ++ '\n' :: rest from rfl,
          splitCRLF_append_newline acc rest h,
          getLastD_cons_of_ne_nil _ _ _ (splitCRLF_ne_nil rest),
          List.dropLast_cons_of_ne_nil (splitCRLF_ne_nil rest),
          List.filterMap_cons]
      cases processLine parse (stripCR acc) <;> simp
    · rw [List.foldl_cons,
          show feedChar parse (acc, evs) c = (acc ++ [c], evs) from by
            simp [feedChar, hc],
          ih (acc ++ [c]) evs
            (by
              intro hm
              rcases List.mem_append.mp hm with hm | hm
              · exact h hm
              · exact hc (List.mem_singleton.mp hm).symm),
          List.append_assoc]
      rfl

/-- Helper: feeding one chunk through the split-based decoder is the same
as folding its characters through the character machine, provided the held
remainder contains no newline. -/
theorem feedChunk_eq_foldl_feedChar {ε : Type} (parse : List Char → Option ε)
    (st : List Char × List ε) (chunk : List Char) (h : '\n' ∉ st.1) :
    feedChunk parse st chunk = List.foldl (feedChar parse) st chunk := by
  obtain ⟨r, evs⟩ := st
  rw [foldl_feedChar_eq parse chunk r evs h]
  rfl

/-- Helper: the character machine never keeps a newline in its fragment. -/
theorem foldl_feedChar_no_newline {ε : Type} (parse : List Char → Option ε)
    (buf : List Char) :
    ∀ st : List Char × List ε, '\n' ∉ st.1 →
      '\n' ∉ (List.foldl (feedChar parse) st buf).1 := by
  induction buf with
  | nil => intro st h; exact h
  | cons c rest ih =>
    intro st h
    rw [List.foldl_cons]
    apply ih
    by_cases hc : c = '\n'
    · simp [feedChar, hc]
    · show '\n' ∉ (if c = '\n' then _ else (st.1 ++ [c], st.2)).1
      rw [if_neg hc]
      intro hm
      rcases List.mem_append.mp hm with hm | hm
      · exact h hm
      · exact hc (List.mem_singleton.mp hm).symm

/-- Helper: folding the decoder chunk-by-chunk equals folding the whole
character stream through the character machine. -/
theorem foldl_feedChunk_eq {ε : Type} (parse : List Char → Option ε)
    (chunks : List (List Char)) :
    ∀ st : List Char × List ε, '\n' ∉ st.1 →
      List.foldl (feedChunk parse) st chunks =
        List.foldl (feedChar parse) st chunks.flatten := by
  induction chunks with
  | nil => intro st h; rfl
  | cons c cs ih =>
    intro st h
    rw [List.foldl_cons, feedChunk_eq_foldl_feedChar parse st c h,
        ih _ (foldl_feedChar_no_newline parse c st h),
        List.flatten_cons, List.foldl_append]

/-- C6.  JSONL chunking invariance: feeding a stdout byte stream to the
decoder as any sequence of chunks — boundaries arbitrary, including
mid-line and mid-CRLF splits — produces exactly the same remainder and
the same ordered sequence of parsed progress events as delivering the
whole stream at once.  Line handling (trimming, skipping empties,
dropping malformed lines without raising, holding the trailing fragment
in the remainder) is the `consumeStdout`/`processLine` definition, for an
arbitrary parse function, so malformed lines contribute zero events on
both sides. -/
theorem jsonl_chunking_invariance {ε : Type} (parse : List Char → Option ε)
    (chunks : List (List Char)) :
    List.foldl (feedChunk parse) ([], []) chunks =
      consumeStdout parse [] chunks.flatten := by
  rw [foldl_feedChunk_eq parse chunks ([], ([] : List ε)) (by simp),
      ← feedChunk_eq_foldl_feedChar parse ([], []) chunks.flatten (by simp)]
  simp [feedChunk]

/-!
Per-job supervisor state machine.

The host runtime serialises all callbacks touching one job (cancel calls,
the timeout watcher, stdout chunk handlers, the close/error callback, the
terminator promise's cleanup), so a job's history is a sequence of
triggers applied to its `ActiveJob` record.  `finishJob` flips `settled`
synchronously before its only await (the manifest read), and every other
handler checks `settled` (or finds the job already deleted from the active
map) and returns, so the whole of `finishJob` is observationally one
atomic step; the manifest the read would produce is a parameter of the
machine.  A job deleted from the active map is `none`.
-/

/-- The mutable per-job record (`ActiveJob` in the source), minus the raw
process handle; `killTreeInFlight` models `killTreeRef` being set (a
terminator run in flight). -/
structure ActiveJob where
  requestedCancel : Bool
  timedOut : Bool
  settled : Bool
  runningEmitted : Bool
  killTreeInFlight : Bool
  stdoutRemainder : List Char
deriving DecidableEq, Repr

/-- One invocation of the caller's event sink (`EngineBridgeEvent` minus
the constant job id).  `errorCode` distinguishes the argument being
omitted (`none`, as for queued/running events) from an explicit
`string | null` (`some`), matching `errorCode?: string | null`. -/
structure BridgeEvent (ε : Type) where
  state : EngineBridgeState
  progressEvent : Option ε
  errorCode : Option (Option String)
deriving DecidableEq, Repr

/-- The value resolved into the job's pending promise
(`EngineBridgeResult` minus the constant job id). -/
structure BridgeResult where
  state : EngineBridgeState
  exitCode : Option Int
  errorCode : Option String
  manifest : Option EngineResultManifest
deriving DecidableEq, Repr

/-- The serialised callbacks that can touch one job after `run` returns. -/
inductive Trigger where
  | cancelCall
  | timeoutFire
  | stdoutChunk (chunk : List Char)
  | closeCb (exitCode : Option Int)
  | errorCb
  | killTreeSettled
deriving DecidableEq, Repr

/-- Triggers that run `finishJob`: the child's close callback and the
spawn-error callback. -/
def Trigger.isSettle : Trigger → Bool
  | .closeCb _ => true
  | .errorCb => true
  | _ => false

/-- Observable output of one trigger step: events handed to the sink,
values resolved into the promise, terminator runs started, the return
value when the trigger was a `cancel()` call, and whether this step
flipped `settled` from false to true. -/
structure StepOut (ε : Type) where
  events : List (BridgeEvent ε) := []
  resolves : List BridgeResult := []
  killLaunches : Nat := 0
  cancelRet : Option Bool := none
  settleFlip : Bool := false
deriving Repr

/-- `requestKillTree` from the source: a no-op when the job is gone,
settled, or a terminator run is already in flight (`killTreeRef` set);
otherwise it starts exactly one terminator run. -/
def requestKillTree (job : Option ActiveJob) : Option ActiveJob × Nat :=
  match job with
  | none => (none, 0)
  | some j =>
    if j.settled ∨ j.killTreeInFlight then (some j, 0)
    else (some { j with killTreeInFlight := true }, 1)

/-- `cancel` from the source: false when the job is unknown or settled;
otherwise set `requestedCancel`, trigger the terminator, return true. -/
def cancelOp (job : Option ActiveJob) : Bool × Option ActiveJob × Nat :=
  match job with
  | none => (false, none, 0)
  | some j =>
    if j.settled then (false, some j, 0)
    else
      let k := requestKillTree (some { j with requestedCancel := true })
      (true, k.1, k.2)

/-- `emitRunningOnce` from the source: emit the bare `running` transition
event the first time, guarded by `runningEmitted`. -/
def emitRunningOnce {ε : Type} (job : Option ActiveJob) :
    Option ActiveJob × List (BridgeEvent ε) :=
  match job with
  | none => (none, [])
  | some j =>
    if j.runningEmitted then (some j, [])
    else (some { j with runningEmitted := true },
          [{ state := .running, progressEvent := none, errorCode := none }])

/-- The stdout-data handler's decoder call: update the job's remainder and
forward each parsed record as a `running`-state progress event. -/
def consumeStdoutStep {ε : Type} (parse : List Char → Option ε)
    (job : Option ActiveJob) (chunk : List Char) :
    Option ActiveJob × List (BridgeEvent ε) :=
  match job with
  | none => (none, [])
  | some j =>
    let o := consumeStdout parse j.stdoutRemainder chunk
    (some { j with stdoutRemainder := o.1 },
     o.2.map (fun e => { state := .running, progressEvent := some e, errorCode := none }))

/-- `finishJob` from the source as one observable step: no-op when the job
is gone or settled; otherwise flip `settled`, compute the outcome, emit
the terminal event, delete the job from the active map, and resolve the
pending promise. -/
def finishJobStep {ε : Type} (manifest : Option EngineResultManifest)
    (job : Option ActiveJob) (exitCode : Option Int) (spawnError : Bool) :
    Option ActiveJob × StepOut ε :=
  match job with
  | none => (none, {})
  | some j =>
    if j.settled then (some j, {})
    else
      let outcome := finishJobOutcome
        { requestedCancel := j.requestedCancel, timedOut := j.timedOut,
          spawnError := spawnError, exitCode := exitCode, manifest := manifest }
      (none,
       { events := [{ state := outcome.1, progressEvent := none,
                      errorCode := some outcome.2 }],
         resolves := [{ state := outcome.1, exitCode := exitCode,
                        errorCode := outcome.2, manifest := manifest }],
         settleFlip := true })

/-- One serialised callback applied to the job: `cancel()`, the timeout
watcher (sets `timedOut` and triggers the terminator, guarded by
`settled`), a stdout chunk (`emitRunningOnce` then the decoder), the
close/error callback (`finishJob`), or the terminator promise's `finally`
clearing `killTreeRef`. -/
def step {ε : Type} (parse : List Char → Option ε)
    (manifest : Option EngineResultManifest) (job : Option ActiveJob) :
    Trigger → Option ActiveJob × StepOut ε
  | .cancelCall =>
    let c := cancelOp job
    (c.2.1, { cancelRet := some c.1, killLaunches := c.2.2 })
  | .timeoutFire =>
    match job with
    | none => (none, {})
    | some j =>
      if j.settled then (some j, {})
      else
        let k := requestKillTree (some { j with timedOut := true })
        (k.1, { killLaunches := k.2 })
  | .stdoutChunk chunk =>
    let r := emitRunningOnce job
    let c := consumeStdoutStep parse r.1 chunk
    (c.1, { events := r.2 ++ c.2 })
  | .closeCb exitCode => finishJobStep manifest job exitCode false
  | .errorCb => finishJobStep manifest job none true
  | .killTreeSettled =>
    match job with
    | none => (none, {})
    | some j => (some { j with killTreeInFlight := false }, {})

/-- The fresh `ActiveJob` record created by `run`. -/
def initialActiveJob : ActiveJob :=
  { requestedCancel := false, timedOut := false, settled := false,
    runningEmitted := false, killTreeInFlight := false, stdoutRemainder := [] }

/-- The synchronous tail of `run`: record the job, emit `queued`, then
`emitRunningOnce` — all before any callback can fire. -/
def runInit (ε : Type) : Option ActiveJob × List (BridgeEvent ε) :=
  let r := emitRunningOnce (ε := ε) (some initialActiveJob)
  (r.1, { state := .queued, progressEvent := none, errorCode := none } :: r.2)

/-- Accumulated observable history of one job: current record, all events
emitted so far, all promise resolutions, terminator runs started, and the
number of false-to-true `settled` flips. -/
structure RunTrace (ε : Type) where
  job : Option ActiveJob
  events : List (BridgeEvent ε)
  resolves : List BridgeResult
  killLaunches : Nat
  settleFlips : Nat

/-- Apply one trigger to a trace, appending its observable output. -/
def stepTrace {ε : Type} (parse : List Char → Option ε)
    (manifest : Option EngineResultManifest) (t : RunTrace ε) (trig : Trigger) :
    RunTrace ε :=
  { job := (step parse manifest t.job trig).1
    events := t.events ++ (step parse manifest t.job trig).2.events
    resolves := t.resolves ++ (step parse manifest t.job trig).2.resolves
    killLaunches := t.killLaunches + (step parse manifest t.job trig).2.killLaunches
    settleFlips := t.settleFlips +
      (if (step parse manifest t.job trig).2.settleFlip then 1 else 0) }

/-- Trace right after `run` returns: job recorded, `queued` and the bare
`running` event emitted, nothing settled. -/
def initTrace (ε : Type) : RunTrace ε :=
  { job := (runInit ε).1, events := (runInit ε).2, resolves := [],
    killLaunches := 0, settleFlips := 0 }

/-- The whole observable history of a job under a trigger sequence. -/
def runTrace {ε : Type} (parse : List Char → Option ε)
    (manifest : Option EngineResultManifest) (trigs : List Trigger) : RunTrace ε :=
  trigs.foldl (stepTrace parse manifest) (initTrace ε)

/-- Number of terminal-state events in a sink history. -/
def countTerminalEvents {ε : Type} (evs : List (BridgeEvent ε)) : Nat :=
  (evs.filter (fun e => e.state.isTerminal)).length

/-- Helper: terminal-event counting is additive. -/
theorem countTerminalEvents_append {ε : Type} (a b : List (BridgeEvent ε)) :
    countTerminalEvents (a ++ b) = countTerminalEvents a + countTerminalEvents b := by
  simp [countTerminalEvents, List.filter_append]

/-- Helper: progress events forwarded by the decoder are `running`-state,
hence never terminal. -/
theorem countTerminalEvents_progress {ε : Type} (l : List ε) :
    countTerminalEvents (l.map (fun e =>
      ({ state := .running, progressEvent := some e, errorCode := none } : BridgeEvent ε))) = 0 := by
  induction l with
  | nil => rfl
  | cons x xs ih => simp [countTerminalEvents, EngineBridgeState.isTerminal]

/-- A trace of a job that has not settled: the record is live with
`settled` false, and no terminal event, resolution or settle flip has
happened. -/
def LiveTrace {ε : Type} (t : RunTrace ε) : Prop :=
  (∃ j, t.job = some j ∧ j.settled = false) ∧
  countTerminalEvents t.events = 0 ∧ t.resolves = [] ∧ t.settleFlips = 0

/-- A trace of a settled job: the record is deleted, and exactly one
terminal event, one resolution and one settle flip have happened. -/
def SettledTrace {ε : Type} (t : RunTrace ε) : Prop :=
  t.job = none ∧ countTerminalEvents t.events = 1 ∧
  t.resolves.length = 1 ∧ t.settleFlips = 1

/-- Helper: the trace right after `run` is live. -/
theorem initTrace_live (ε : Type) : LiveTrace (initTrace ε) := by
  refine ⟨⟨{ initialActiveJob with runningEmitted := true }, ?_, rfl⟩, ?_, rfl, rfl⟩
  · simp [initTrace, runInit, emitRunningOnce, initialActiveJob]
  · simp [initTrace, runInit, emitRunningOnce, initialActiveJob,
      countTerminalEvents, EngineBridgeState.isTerminal]

/-- Helper: `cancel()` on a live job sets `requestedCancel`, leaves a
terminator run in flight, starts one only if none was, and returns true. -/
theorem step_cancel_live {ε : Type} (parse : List Char → Option ε)
    (manifest : Option EngineResultManifest) (j : ActiveJob) (h : j.settled = false) :
    step (ε := ε) parse manifest (some j) Trigger.cancelCall =
      (some { j with requestedCancel := true, killTreeInFlight := true },
       { cancelRet := some true,
         killLaunches := if j.killTreeInFlight then 0 else 1 }) := by
  cases hk : j.killTreeInFlight <;>
    simp [step, cancelOp, requestKillTree, h, hk]

/-- Helper: the timeout watcher on a live job sets `timedOut` and triggers
the terminator under the same in-flight guard. -/
theorem step_timeout_live {ε : Type} (parse : List Char → Option ε)
    (manifest : Option EngineResultManifest) (j : ActiveJob) (h : j.settled = false) :
    step (ε := ε) parse manifest (some j) Trigger.timeoutFire =
      (some { j with timedOut := true, killTreeInFlight := true },
       { killLaunches := if j.killTreeInFlight then 0 else 1 }) := by
  cases hk : j.killTreeInFlight <;>
    simp [step, requestKillTree, h, hk]

/-- Helper: a stdout chunk marks `running` emitted, updates the remainder,
and emits the bare running event only the first time, followed by the
decoded progress events. -/
theorem step_stdout_live {ε : Type} (parse : List Char → Option ε)
    (manifest : Option EngineResultManifest) (j : ActiveJob) (chunk : List Char) :
    step (ε := ε) parse manifest (some j) (Trigger.stdoutChunk chunk) =
      (some { j with runningEmitted := true,
                     stdoutRemainder := (consumeStdout parse j.stdoutRemainder chunk).1 },
       { events :=
          (if j.runningEmitted then [] else
            [{ state := .running, progressEvent := none, errorCode := none }]) ++
          (consumeStdout parse j.stdoutRemainder chunk).2.map (fun e =>
            { state := .running, progressEvent := some e, errorCode := none }) }) := by
  cases hr : j.runningEmitted <;>
    simp [step, emitRunningOnce, consumeStdoutStep, hr]

/-- Helper: `finishJob` on a live job computes the outcome, emits the one
terminal event, deletes the record and resolves the promise. -/
theorem finishJobStep_live {ε : Type} (manifest : Option EngineResultManifest)
    (j : ActiveJob) (exitCode : Option Int) (spawnError : Bool) (h : j.settled = false) :
    finishJobStep (ε := ε) manifest (some j) exitCode spawnError =
      (none,
       ⟨[⟨(finishJobOutcome ⟨j.requestedCancel, j.timedOut, spawnError, exitCode,
             manifest⟩).1, none,
          some (finishJobOutcome ⟨j.requestedCancel, j.timedOut, spawnError, exitCode,
             manifest⟩).2⟩],
        [⟨(finishJobOutcome ⟨j.requestedCancel, j.timedOut, spawnError, exitCode,
             manifest⟩).1, exitCode,
          (finishJobOutcome ⟨j.requestedCancel, j.timedOut, spawnError, exitCode,
             manifest⟩).2, manifest⟩],
        0, none, true⟩) := by
  simp [finishJobStep, h]

/-- Helper: every trigger leaves a deleted job deleted and produces no
events, no resolution, no terminator run and no settle flip. -/
theorem step_none_obs {ε : Type} (parse : List Char → Option ε)
    (manifest : Option EngineResultManifest) (trig : Trigger) :
    (step (ε := ε) parse manifest none trig).1 = none ∧
    (step (ε := ε) parse manifest none trig).2.events = [] ∧
    (step (ε := ε) parse manifest none trig).2.resolves = [] ∧
    (step (ε := ε) parse manifest none trig).2.killLaunches = 0 ∧
    (step (ε := ε) parse manifest none trig).2.settleFlip = false := by
  cases trig <;>
    simp [step, cancelOp, emitRunningOnce, consumeStdoutStep, finishJobStep]

/-- Helper: a single bare running event is not terminal. -/
theorem countTerminalEvents_running_bare {ε : Type} :
    countTerminalEvents
      ([{ state := .running, progressEvent := none, errorCode := none }] :
        List (BridgeEvent ε)) = 0 := rfl

/-- Helper: from a live trace, a non-settle trigger keeps the trace live
and a settle trigger moves it to the settled shape. -/
theorem stepTrace_of_live {ε : Type} (parse : List Char → Option ε)
    (manifest : Option EngineResultManifest) (t : RunTrace ε) (trig : Trigger)
    (h : LiveTrace t) :
    (trig.isSettle = false → LiveTrace (stepTrace parse manifest t trig)) ∧
    (trig.isSettle = true → SettledTrace (stepTrace parse manifest t trig)) := by
  obtain ⟨⟨j, hj, hsettled⟩, hterm, hres, hflip⟩ := h
  cases trig with
  | cancelCall =>
    refine ⟨fun _ => ?_, fun hc => nomatch hc⟩
    unfold stepTrace
    rw [hj, step_cancel_live parse manifest j hsettled]
    exact ⟨⟨_, rfl, hsettled⟩,
      by rw [countTerminalEvents_append, hterm]; rfl,
      by simp [hres], by simp [hflip]⟩
  | timeoutFire =>
    refine ⟨fun _ => ?_, fun hc => nomatch hc⟩
    unfold stepTrace
    rw [hj, step_timeout_live parse manifest j hsettled]
    exact ⟨⟨_, rfl, hsettled⟩,
      by rw [countTerminalEvents_append, hterm]; rfl,
      by simp [hres], by simp [hflip]⟩
  | stdoutChunk chunk =>
    refine ⟨fun _ => ?_, fun hc => nomatch hc⟩
    unfold stepTrace
    rw [hj, step_stdout_live parse manifest j chunk]
    refine ⟨⟨_, rfl, hsettled⟩, ?_, by simp [hres], by simp [hflip]⟩
    rw [countTerminalEvents_append, hterm, countTerminalEvents_append,
        countTerminalEvents_progress]
    cases j.runningEmitted <;> simp [countTerminalEvents_running_bare]
    rfl
  | closeCb exitCode =>
    refine ⟨(fun hc => nomatch hc), fun _ => ?_⟩
    unfold stepTrace
    show SettledTrace _
    rw [show step parse manifest t.job (Trigger.closeCb exitCode) =
          finishJobStep manifest t.job exitCode false from rfl,
        hj, finishJobStep_live manifest j exitCode false hsettled]
    refine ⟨rfl, ?_, by simp [hres], by simp [hflip]⟩
    rw [countTerminalEvents_append, hterm]
    simp [countTerminalEvents, finishJobOutcome_isTerminal]
  | errorCb =>
    refine ⟨(fun hc => nomatch hc), fun _ => ?_⟩
    unfold stepTrace
    show SettledTrace _
    rw [show step parse manifest t.job Trigger.errorCb =
          finishJobStep manifest t.job none true from rfl,
        hj, finishJobStep_live manifest j none true hsettled]
    refine ⟨rfl, ?_, by simp [hres], by simp [hflip]⟩
    rw [countTerminalEvents_append, hterm]
    simp [countTerminalEvents, finishJobOutcome_isTerminal]
  | killTreeSettled =>
    refine ⟨fun _ => ?_, fun hc => nomatch hc⟩
    unfold stepTrace
    rw [hj, show step parse manifest (some j) Trigger.killTreeSettled =
          (some { j with killTreeInFlight := false }, {}) from rfl]
    exact ⟨⟨_, rfl, hsettled⟩,
      by rw [countTerminalEvents_append, hterm]; rfl,
      by simp [hres], by simp [hflip]⟩

/-- Helper: once settled, every further trigger is a no-op on the
observables. -/
theorem stepTrace_of_settled {ε : Type} (parse : List Char → Option ε)
    (manifest : Option EngineResultManifest) (t : RunTrace ε) (trig : Trigger)
    (h : SettledTrace t) : SettledTrace (stepTrace parse manifest t trig) := by
  obtain ⟨hj, hterm, hres, hflip⟩ := h
  obtain ⟨h1, h2, h3, h4, h5⟩ := step_none_obs (ε := ε) parse manifest trig
  unfold stepTrace
  rw [hj]
  refine ⟨h1, ?_, ?_, ?_⟩
  · rw [h2, countTerminalEvents_append, hterm]; rfl
  · rw [h3, List.append_nil, hres]
  · rw [h5, hflip]
    rfl

/-- Helper: settledness is absorbed by any further trigger sequence. -/
theorem foldl_stepTrace_of_settled {ε : Type} (parse : List Char → Option ε)
    (manifest : Option EngineResultManifest) (trigs : List Trigger) :
    ∀ t : RunTrace ε, SettledTrace t →
      SettledTrace (List.foldl (stepTrace parse manifest) t trigs) := by
  induction trigs with
  | nil => intro t h; exact h
  | cons c cs ih =>
    intro t h
    exact ih _ (stepTrace_of_settled parse manifest t c h)

/-- Helper: a live trace fed a trigger sequence containing a settle
trigger ends settled. -/
theorem foldl_stepTrace_of_live {ε : Type} (parse : List Char → Option ε)
    (manifest : Option EngineResultManifest) (trigs : List Trigger) :
    ∀ t : RunTrace ε, LiveTrace t → (∃ trig ∈ trigs, trig.isSettle = true) →
      SettledTrace (List.foldl (stepTrace parse manifest) t trigs) := by
  induction trigs with
  | nil => intro t h hex; simp at hex
  | cons c cs ih =>
    intro t h hex
    by_cases hc : c.isSettle = true
    · exact foldl_stepTrace_of_settled parse manifest cs _
        ((stepTrace_of_live parse manifest t c h).2 hc)
    · rcases hex with ⟨trig, htrig, hsettle⟩
      rcases List.mem_cons.mp htrig with rfl | hmem
      · exact absurd hsettle hc
      · exact ih _ ((stepTrace_of_live parse manifest t c h).1
          (Bool.not_eq_true _ ▸ hc)) ⟨trig, hmem, hsettle⟩

/-- C4.  Exactly-once settlement: for every trigger sequence containing at
least one close/error callback — with any number of cancel calls, timeout
firings, stdout chunks and terminator completions interleaved in any
order — the job's `settled` flag flips from false to true exactly once,
the event sink receives exactly one terminal-state event, and the pending
result promise is resolved exactly once. -/
theorem exactly_once_settlement {ε : Type} (parse : List Char → Option ε)
    (manifest : Option EngineResultManifest) (trigs : List Trigger)
    (h : ∃ trig ∈ trigs, trig.isSettle = true) :
    countTerminalEvents (runTrace (ε := ε) parse manifest trigs).events = 1 ∧
    (runTrace (ε := ε) parse manifest trigs).resolves.length = 1 ∧
    (runTrace (ε := ε) parse manifest trigs).settleFlips = 1 := by
  have hs := foldl_stepTrace_of_live parse manifest trigs (initTrace ε)
    (initTrace_live ε) h
  exact ⟨hs.2.1, hs.2.2.1, hs.2.2.2⟩

/-- C4, witness at a concrete history: two cancel calls, a timeout firing
and one close callback still settle exactly once. -/
theorem exactly_once_settlement_witness :
    countTerminalEvents (runTrace (ε := Unit) (fun _ => none) none
      [Trigger.cancelCall, Trigger.cancelCall, Trigger.timeoutFire,
       Trigger.closeCb none]).events = 1 ∧
    (runTrace (ε := Unit) (fun _ => none) none
      [Trigger.cancelCall, Trigger.cancelCall, Trigger.timeoutFire,
       Trigger.closeCb none]).resolves.length = 1 ∧
    (runTrace (ε := Unit) (fun _ => none) none
      [Trigger.cancelCall, Trigger.cancelCall, Trigger.timeoutFire,
       Trigger.closeCb none]).settleFlips = 1 :=
  exactly_once_settlement _ _ _ ⟨Trigger.closeCb none, by simp, rfl⟩

/-- A bare `running` transition event: `running` state with no progress
payload (as opposed to decoder-forwarded progress events, which carry
one). -/
def isBareRunning {ε : Type} (e : BridgeEvent ε) : Bool :=
  e.state == EngineBridgeState.running && e.progressEvent.isNone

/-- Number of bare `running` transition events in a sink history. -/
def countBareRunning {ε : Type} (evs : List (BridgeEvent ε)) : Nat :=
  (evs.filter isBareRunning).length

/-- Helper: bare-running counting is additive. -/
theorem countBareRunning_append {ε : Type} (a b : List (BridgeEvent ε)) :
    countBareRunning (a ++ b) = countBareRunning a + countBareRunning b := by
  simp [countBareRunning, List.filter_append]

/-- Helper: decoder-forwarded progress events are never bare. -/
theorem countBareRunning_progress {ε : Type} (l : List ε) :
    countBareRunning (l.map (fun e =>
      ({ state := .running, progressEvent := some e, errorCode := none } : BridgeEvent ε))) = 0 := by
  induction l with
  | nil => rfl
  | cons x xs ih => simp [countBareRunning, isBareRunning]

/-- Helper: a terminal state is not `running`. -/
theorem isTerminal_beq_running (s : EngineBridgeState) (h : s.isTerminal = true) :
    (s == EngineBridgeState.running) = false := by
  cases s <;> simp_all [EngineBridgeState.isTerminal]

/-- Invariant for the running-once guarantee: the first two sink events
are `queued` then the bare `running` event, exactly one bare running
event has been emitted, and any live record has `runningEmitted` set. -/
def RunningOnceTrace {ε : Type} (t : RunTrace ε) : Prop :=
  t.events.take 2 =
    [{ state := .queued, progressEvent := none, errorCode := none },
     { state := .running, progressEvent := none, errorCode := none }] ∧
  countBareRunning t.events = 1 ∧
  (∀ j, t.job = some j → j.runningEmitted = true)

/-- Helper: the trace right after `run` satisfies the running-once
invariant — both events are emitted synchronously inside `run`. -/
theorem initTrace_runningOnce (ε : Type) : RunningOnceTrace (initTrace ε) := by
  refine ⟨rfl, rfl, ?_⟩
  intro j hj
  simp only [initTrace, runInit, emitRunningOnce, initialActiveJob] at hj
  cases hj
  rfl

/-- Helper: every step out of a record with `runningEmitted` set emits no
further bare running event and keeps `runningEmitted` set. -/
theorem step_no_more_bare {ε : Type} (parse : List Char → Option ε)
    (manifest : Option EngineResultManifest) (job : Option ActiveJob) (trig : Trigger)
    (hrun : ∀ j, job = some j → j.runningEmitted = true) :
    countBareRunning (step (ε := ε) parse manifest job trig).2.events = 0 ∧
    (∀ j2, (step (ε := ε) parse manifest job trig).1 = some j2 →
      j2.runningEmitted = true) := by
  cases job with
  | none =>
    obtain ⟨h1, h2, h3, h4, h5⟩ := step_none_obs (ε := ε) parse manifest trig
    refine ⟨by rw [h2]; rfl, ?_⟩
    intro j2 hj2
    rw [h1] at hj2
    cases hj2
  | some j =>
    have hr : j.runningEmitted = true := hrun j rfl
    cases trig with
    | cancelCall =>
      by_cases hs : j.settled
      · constructor
        · simp [step, cancelOp, hs, countBareRunning]
        · intro j2 hj2
          simp only [step, cancelOp, hs] at hj2
          simp at hj2
          cases hj2
          exact hr
      · rw [step_cancel_live parse manifest j (by simp [hs])]
        exact ⟨rfl, fun j2 hj2 => by cases hj2; exact hr⟩
    | timeoutFire =>
      by_cases hs : j.settled
      · constructor
        · simp [step, hs, countBareRunning]
        · intro j2 hj2
          simp only [step, hs] at hj2
          simp at hj2
          cases hj2
          exact hr
      · rw [step_timeout_live parse manifest j (by simp [hs])]
        exact ⟨rfl, fun j2 hj2 => by cases hj2; exact hr⟩
    | stdoutChunk chunk =>
      rw [step_stdout_live parse manifest j chunk]
      refine ⟨?_, fun j2 hj2 => by cases hj2; rfl⟩
      rw [hr]
      simpa [countBareRunning_append] using countBareRunning_progress _
    | closeCb exitCode =>
      by_cases hs : j.settled
      · constructor
        · simp [step, finishJobStep, hs, countBareRunning]
        · intro j2 hj2
          simp only [step, finishJobStep, hs] at hj2
          simp at hj2
          cases hj2
          exact hr
      · rw [show step (ε := ε) parse manifest (some j) (Trigger.closeCb exitCode) =
              finishJobStep manifest (some j) exitCode false from rfl,
            finishJobStep_live manifest j exitCode false (by simp [hs])]
        refine ⟨?_, fun j2 hj2 => by cases hj2⟩
        simp [countBareRunning, isBareRunning,
          isTerminal_beq_running _ (finishJobOutcome_isTerminal _)]
    | errorCb =>
      by_cases hs : j.settled
      · constructor
        · simp [step, finishJobStep, hs, countBareRunning]
        · intro j2 hj2
          simp only [step, finishJobStep, hs] at hj2
          simp at hj2
          cases hj2
          exact hr
      · rw [show step (ε := ε) parse manifest (some j) Trigger.errorCb =
              finishJobStep manifest (some j) none true from rfl,
            finishJobStep_live manifest j none true (by simp [hs])]
        refine ⟨?_, fun j2 hj2 => by cases hj2⟩
        simp [countBareRunning, isBareRunning,
          isTerminal_beq_running _ (finishJobOutcome_isTerminal _)]
    | killTreeSettled =>
      exact ⟨rfl, fun j2 hj2 => by cases hj2; exact hr⟩

/-- Helper: the running-once invariant is preserved by every trigger. -/
theorem stepTrace_runningOnce {ε : Type} (parse : List Char → Option ε)
    (manifest : Option EngineResultManifest) (t : RunTrace ε) (trig : Trigger)
    (h : RunningOnceTrace t) : RunningOnceTrace (stepTrace parse manifest t trig) := by
  obtain ⟨htake, hbare, hrun⟩ := h
  have hlen : 2 ≤ t.events.length := by
    have h2 := congrArg List.length htake
    rw [List.length_take] at h2
    simp at h2
    omega
  obtain ⟨hb, hj⟩ := step_no_more_bare parse manifest t.job trig hrun
  refine ⟨?_, ?_, ?_⟩
  · show (t.events ++ _).take 2 = _
    rw [List.take_append_of_le_length hlen, htake]
  · show countBareRunning (t.events ++ _) = 1
    rw [countBareRunning_append, hbare, hb]
  · exact hj

/-- C10.  The `queued` event and the bare `running` transition event are
emitted synchronously inside `run` itself, so for every trigger history —
including a child that never produces stdout — the sink's first two events
are `queued` then `running`; and the `runningEmitted` guard makes the bare
`running` event appear exactly once in the whole history, no matter how
many stdout chunks follow. -/
theorem queued_then_running_once {ε : Type} (parse : List Char → Option ε)
    (manifest : Option EngineResultManifest) (trigs : List Trigger) :
    (runTrace (ε := ε) parse manifest trigs).events.take 2 =
      [{ state := .queued, progressEvent := none, errorCode := none },
       { state := .running, progressEvent := none, errorCode := none }] ∧
    countBareRunning (runTrace (ε := ε) parse manifest trigs).events = 1 := by
  suffices h : ∀ (ts : List Trigger) (t : RunTrace ε), RunningOnceTrace t →
      RunningOnceTrace (List.foldl (stepTrace parse manifest) t ts) by
    have hfin := h trigs (initTrace ε) (initTrace_runningOnce ε)
    exact ⟨hfin.1, hfin.2.1⟩
  intro ts
  induction ts with
  | nil => intro t h; exact h
  | cons c cs ih =>
    intro t h
    exact ih _ (stepTrace_runningOnce parse manifest t c h)

/-- Helper: only the close and error callbacks can resolve the promise;
no other trigger ever produces a resolution. -/
theorem step_resolves_only_settle {ε : Type} (parse : List Char → Option ε)
    (manifest : Option EngineResultManifest) (job : Option ActiveJob) (trig : Trigger)
    (h : (step (ε := ε) parse manifest job trig).2.resolves ≠ []) :
    trig.isSettle = true := by
  cases trig with
  | closeCb exitCode => rfl
  | errorCb => rfl
  | cancelCall =>
    exfalso; apply h
    cases job with
    | none => rfl
    | some j => rfl
  | timeoutFire =>
    exfalso; apply h
    cases job with
    | none => rfl
    | some j =>
      by_cases hs : j.settled <;> simp [step, requestKillTree, hs]
  | stdoutChunk chunk =>
    exfalso; apply h
    cases job with
    | none => rfl
    | some j =>
      by_cases hr : j.runningEmitted <;> simp [step, emitRunningOnce, consumeStdoutStep, hr]
  | killTreeSettled =>
    exfalso; apply h
    cases job with
    | none => rfl
    | some j => rfl

/-- C8.  The `cancel(jobId)` guard: the call returns false exactly when
the job is unknown (absent from the active map) or already settled, and
then changes nothing and starts no terminator run; on a live job it sets
`requestedCancel`, leaves a terminator run in flight (starting a new one
only when none is, via the `killTreeRef` guard), and returns true.  A
cancel call emits no event, resolves nothing and flips no settle flag —
resolution happens only through the close/error callback. -/
theorem cancel_guard {ε : Type} (parse : List Char → Option ε)
    (manifest : Option EngineResultManifest) (job : Option ActiveJob) :
    ((step (ε := ε) parse manifest job Trigger.cancelCall).2.cancelRet = some false ↔
      job = none ∨ ∃ j, job = some j ∧ j.settled = true) ∧
    ((step (ε := ε) parse manifest job Trigger.cancelCall).2.cancelRet = some false →
      (step (ε := ε) parse manifest job Trigger.cancelCall).1 = job ∧
      (step (ε := ε) parse manifest job Trigger.cancelCall).2.killLaunches = 0) ∧
    (∀ j, job = some j → j.settled = false →
      (step (ε := ε) parse manifest job Trigger.cancelCall).2.cancelRet = some true ∧
      (step (ε := ε) parse manifest job Trigger.cancelCall).1 =
        some { j with requestedCancel := true, killTreeInFlight := true } ∧
      (step (ε := ε) parse manifest job Trigger.cancelCall).2.killLaunches =
        (if j.killTreeInFlight then 0 else 1)) ∧
    (step (ε := ε) parse manifest job Trigger.cancelCall).2.events = [] ∧
    (step (ε := ε) parse manifest job Trigger.cancelCall).2.resolves = [] ∧
    (step (ε := ε) parse manifest job Trigger.cancelCall).2.settleFlip = false ∧
    (∀ trig : Trigger, (step (ε := ε) parse manifest job trig).2.resolves ≠ [] →
      trig.isSettle = true) := by
  refine ⟨?_, ?_, ?_, ?_, ?_, ?_,
    fun trig h => step_resolves_only_settle parse manifest job trig h⟩
  · cases job with
    | none => simp [step, cancelOp]
    | some j =>
      by_cases hs : j.settled
      · simp [step, cancelOp, hs]
      · rw [step_cancel_live parse manifest j (by simp [hs])]
        simp [hs]
  · intro hfalse
    cases job with
    | none => exact ⟨rfl, rfl⟩
    | some j =>
      by_cases hs : j.settled
      · simp [step, cancelOp, hs]
      · rw [step_cancel_live parse manifest j (by simp [hs])] at hfalse
        simp at hfalse
  · intro j hjob hs
    subst hjob
    rw [step_cancel_live parse manifest j hs]
    exact ⟨rfl, rfl, rfl⟩
  · cases job with
    | none => rfl
    | some j =>
      by_cases hs : j.settled
      · simp [step, cancelOp, hs]
      · rw [step_cancel_live parse manifest j (by simp [hs])]
  · cases job with
    | none => rfl
    | some j => rfl
  · cases job with
    | none => rfl
    | some j => rfl

/-- C8, witness at concrete inputs: cancelling an unknown job and an
already-settled job returns false; cancelling a live job returns true. -/
theorem cancel_guard_witness :
    (step (ε := Unit) (fun _ => none) none none Trigger.cancelCall).2.cancelRet =
      some false ∧
    (step (ε := Unit) (fun _ => none) none
      (some { initialActiveJob with settled := true }) Trigger.cancelCall).2.cancelRet =
      some false ∧
    (step (ε := Unit) (fun _ => none) none
      (some initialActiveJob) Trigger.cancelCall).2.cancelRet = some true :=
  ⟨(cancel_guard (ε := Unit) (fun _ => none) none none).1.mpr (Or.inl rfl),
   (cancel_guard (ε := Unit) (fun _ => none) none
      (some { initialActiveJob with settled := true })).1.mpr
      (Or.inr ⟨_, rfl, rfl⟩),
   ((cancel_guard (ε := Unit) (fun _ => none) none
      (some initialActiveJob)).2.2.1 initialActiveJob rfl rfl).1⟩

/-- `readResultManifest` from the source: read `<outputDir>/result.json`
and JSON-parse it, with any failure (missing or unreadable file, malformed
JSON) caught and turned into `null`.  The file system read and the JSON
parse are abstracted as `Option`-returning functions. -/
def readResultManifest (readFile : String → Option String)
    (parseManifest : String → Option EngineResultManifest) (outputDir : String) :
    Option EngineResultManifest :=
  match readFile (outputDir ++ "/result.json") with
  | none => none
  | some raw => parseManifest raw

/-- C9.  The manifest reader targets exactly `<outputDir>/result.json`
and yields `null` precisely when the read or the parse fails — never an
exception (totality of the definition); and reconciliation proceeds with
a null manifest: `finishJob` still computes a terminal outcome for every
flag combination and exit code. -/
theorem manifest_read_failure_yields_null (readFile : String → Option String)
    (parseManifest : String → Option EngineResultManifest) (outputDir : String) :
    (readResultManifest readFile parseManifest outputDir = none ↔
      readFile (outputDir ++ "/result.json") = none ∨
      ∃ raw, readFile (outputDir ++ "/result.json") = some raw ∧
        parseManifest raw = none) ∧
    (∀ raw, readFile (outputDir ++ "/result.json") = some raw →
      readResultManifest readFile parseManifest outputDir = parseManifest raw) ∧
    (∀ rc td se ec,
      ((finishJobOutcome ⟨rc, td, se, ec, none⟩).1).isTerminal = true) := by
  refine ⟨?_, ?_, fun rc td se ec => finishJobOutcome_isTerminal _⟩
  · unfold readResultManifest
    cases h : readFile (outputDir ++ "/result.json") <;> simp [h]
  · intro raw hraw
    unfold readResultManifest
    rw [hraw]

/-- C9, witness at concrete inputs: a missing file and a malformed file
both read as `null`. -/
theorem manifest_read_failure_yields_null_witness :
    readResultManifest (fun _ => none) (fun _ => none) "out" = none ∧
    readResultManifest (fun _ => some "not json") (fun _ => none) "out" = none :=
  ⟨(manifest_read_failure_yields_null (fun _ => none) (fun _ => none) "out").1.mpr
      (Or.inl rfl),
   (manifest_read_failure_yields_null (fun _ => some "not json") (fun _ => none)
      "out").1.mpr (Or.inr ⟨"not json", rfl, rfl⟩)⟩
